import Mathlib

/-!
Verification of the financial data pipeline (extractors, category mapper,
transformer, dimension loader, orchestrator) against its specification.

The Python source under `data_pipeline/src` is shallowly embedded:
dictionaries become structures with `Option` fields (a `none` field models an
absent key), Python generators become `List`-producing functions, amounts and
JSON numbers are modelled as exact rationals (`ℚ`; no arithmetic is performed
on amounts, only conversion and comparison with zero, so this is faithful),
and fallible code returns `Except`/`Option`.
-/

set_option maxRecDepth 100000

namespace Pipeline

/-! ## String helpers (ASCII semantics of `str.lower`, `in`, `re.search`) -/

/-- ASCII lowercasing of a single character, as `str.lower` acts on the ASCII
inputs occurring in this code base. -/
def lowerChar (c : Char) : Char :=
  if 65 ≤ c.toNat ∧ c.toNat ≤ 90 then Char.ofNat (c.toNat + 32) else c

/-- Lowercase a character list. -/
def lowerChars (l : List Char) : List Char := l.map lowerChar

/-- Lowercase a string (Python `str.lower` on ASCII text). -/
def pyLower (s : String) : String := ⟨lowerChars s.data⟩

/-- `needle.isPrefixOf hay` on character lists. -/
def prefixOfList : List Char → List Char → Bool
  | [], _ => true
  | _ :: _, [] => false
  | a :: as, b :: bs => a = b && prefixOfList as bs

/-- Substring containment on character lists: Python `needle in hay`, and the
semantics of `re.search(re.escape(needle), hay)` being non-`None`.
An empty needle matches everywhere, as with `re.search`. -/
def containsSub (needle : List Char) : List Char → Bool
  | [] => needle.isEmpty
  | c :: rest => prefixOfList needle (c :: rest) || containsSub needle rest

/-- Python `in` on strings (case-sensitive substring test). -/
def strContains (hay needle : String) : Bool := containsSub needle.data hay.data

/-- Python `str.strip()`: drop leading and trailing whitespace (structural
over the character list, so it evaluates in the kernel). -/
def pyStrip (s : String) : String :=
  ⟨((s.data.dropWhile Char.isWhitespace).reverse.dropWhile Char.isWhitespace).reverse⟩

/-- Python `x or default` for an optional string: `none` and the empty string
are falsy and fall back to the default. -/
def pyOr (x : Option String) (d : String) : String :=
  match x with
  | none => d
  | some s => if s = "" then d else s

/-! ## SHA-256 (`hashlib.sha256` as used by the transformer)

A reference implementation of FIPS 180-4 SHA-256 over byte lists, with 32-bit
words as `ℕ` reduced mod `2 ^ 32`, so that `generate_account_id` is fully
executable. -/

/-- Reduce to a 32-bit word. -/
def w32 (n : ℕ) : ℕ := n % 4294967296

/-- 32-bit right rotation. -/
def rotr32 (x n : ℕ) : ℕ := w32 ((x >>> n) ||| (x <<< (32 - n)))

def bsig0 (x : ℕ) : ℕ := (rotr32 x 2) ^^^ (rotr32 x 13) ^^^ (rotr32 x 22)

def bsig1 (x : ℕ) : ℕ := (rotr32 x 6) ^^^ (rotr32 x 11) ^^^ (rotr32 x 25)

def ssig0 (x : ℕ) : ℕ := (rotr32 x 7) ^^^ (rotr32 x 18) ^^^ (x >>> 3)

def ssig1 (x : ℕ) : ℕ := (rotr32 x 17) ^^^ (rotr32 x 19) ^^^ (x >>> 10)

/-- SHA-256 choice function; `x` is a 32-bit word so complement is xor with
`2 ^ 32 - 1`. -/
def chF (x y z : ℕ) : ℕ := (x &&& y) ^^^ ((x ^^^ 4294967295) &&& z)

def majF (x y z : ℕ) : ℕ := (x &&& y) ^^^ (x &&& z) ^^^ (y &&& z)

/-- The 64 SHA-256 round constants. -/
def sha256K : List ℕ := [
  1116352408, 1899447441, 3049323471, 3921009573, 961987163,
  1508970993, 2453635748, 2870763221, 3624381080, 310598401,
  607225278, 1426881987, 1925078388, 2162078206, 2614888103,
  3248222580, 3835390401, 4022224774, 264347078, 604807628,
  770255983, 1249150122, 1555081692, 1996064986, 2554220882,
  2821834349, 2952996808, 3210313671, 3336571891, 3584528711,
  113926993, 338241895, 666307205, 773529912, 1294757372,
  1396182291, 1695183700, 1986661051, 2177026350, 2456956037,
  2730485921, 2820302411, 3259730800, 3345764771, 3516065817,
  3600352804, 4094571909, 275423344, 430227734, 506948616,
  659060556, 883997877, 958139571, 1322822218, 1537002063,
  1747873779, 1955562222, 2024104815, 2227730452, 2361852424,
  2428436474, 2756734187, 3204031479, 3329325298]

/-- The SHA-256 initial hash state. -/
def sha256H0 : List ℕ := [
  1779033703, 3144134277, 1013904242, 2773480762,
  1359893119, 2600822924, 528734635, 1541459225]

/-- Group a byte list into 32-bit big-endian words (trailing partial group
dropped; inputs are always multiples of 4). -/
def wordsOfBytes : List ℕ → List ℕ
  | b0 :: b1 :: b2 :: b3 :: rest =>
    (b0 * 16777216 + b1 * 65536 + b2 * 256 + b3) :: wordsOfBytes rest
  | _ => []

/-- `k`-byte big-endian encoding of `n`. -/
def natToBytesBE : ℕ → ℕ → List ℕ
  | 0, _ => []
  | k + 1, n => natToBytesBE k (n / 256) ++ [n % 256]

/-- SHA-256 message padding: `0x80`, zeros to 56 mod 64, 64-bit bit length. -/
def sha256pad (msg : List ℕ) : List ℕ :=
  let L := msg.length
  msg ++ [128] ++ List.replicate ((119 - (L % 64)) % 64) 0 ++ natToBytesBE 8 (8 * L)

/-- Split into successive 64-byte blocks; the fuel argument (any bound on the
list length) makes the recursion structural. -/
def chunks64Go : ℕ → List ℕ → List (List ℕ)
  | 0, _ => []
  | _ + 1, [] => []
  | fuel + 1, l => l.take 64 :: chunks64Go fuel (l.drop 64)

/-- Split into successive 64-byte blocks. -/
def chunks64 (l : List ℕ) : List (List ℕ) := chunks64Go l.length l

/-- One message-schedule extension step: append word `w.length` of the
schedule. -/
def schedStep (w : List ℕ) : List ℕ :=
  let i := w.length
  w ++ [w32 (ssig1 (w.getD (i - 2) 0) + w.getD (i - 7) 0 +
             ssig0 (w.getD (i - 15) 0) + w.getD (i - 16) 0)]

/-- Extend the 16 block words to the 64-entry message schedule. -/
def schedule (ws : List ℕ) : List ℕ :=
  (List.range 48).foldl (fun w _ => schedStep w) ws

/-- One SHA-256 compression round on the 8-word state. -/
def roundF (st : List ℕ) (kw : ℕ × ℕ) : List ℕ :=
  match st with
  | [a, b, c, d, e, f, g, h] =>
    let t1 := w32 (h + bsig1 e + chF e f g + kw.1 + kw.2)
    let t2 := w32 (bsig0 a + majF a b c)
    [w32 (t1 + t2), a, b, c, w32 (d + t1), e, f, g]
  | other => other

/-- Compress one 64-byte block into the hash state. -/
def compressBlock (hs : List ℕ) (block : List ℕ) : List ℕ :=
  let st := (sha256K.zip (schedule (wordsOfBytes block))).foldl roundF hs
  (hs.zip st).map (fun p => w32 (p.1 + p.2))

/-- SHA-256 of a byte list, as the list of 8 32-bit state words. -/
def sha256words (msg : List ℕ) : List ℕ :=
  (chunks64 (sha256pad msg)).foldl compressBlock sha256H0

/-- Lowercase hexadecimal digit. -/
def hexDigit (n : ℕ) : Char :=
  if n < 10 then Char.ofNat (48 + n) else Char.ofNat (87 + n)

/-- 8-hex-digit big-endian rendering of a 32-bit word. -/
def wordHex8 (n : ℕ) : List Char :=
  (List.range 8).map (fun i => hexDigit ((n >>> (4 * (7 - i))) % 16))

/-- UTF-8 encoding of one code point (Python `str.encode`). -/
def utf8Char (n : ℕ) : List ℕ :=
  if n < 128 then [n]
  else if n < 2048 then [192 + n / 64, 128 + n % 64]
  else if n < 65536 then [224 + n / 4096, 128 + (n / 64) % 64, 128 + n % 64]
  else [240 + n / 262144, 128 + (n / 4096) % 64, 128 + (n / 64) % 64, 128 + n % 64]

/-- UTF-8 byte encoding of a string. -/
def utf8Bytes (s : String) : List ℕ := (s.data.map (fun c => utf8Char c.toNat)).flatten

/-- `hashlib.sha256(...).hexdigest()`: the 64-character lowercase hex digest. -/
def sha256hex (s : String) : String :=
  ⟨((sha256words (utf8Bytes s)).map wordHex8).flatten⟩

/-- `FinancialTransformer._generate_account_id`: first 16 hex characters of
the SHA-256 of the lowercased `source:type:name` key. -/
def generate_account_id (account_name account_type source_system : String) : String :=
  (sha256hex (pyLower (source_system ++ ":" ++ account_type ++ ":" ++ account_name))).take 16

/-! ## CategoryMapper (`src/utils/category_mapper.py`)

`CATEGORY_MAPPINGS` is copied in declaration order (Python dicts preserve
insertion order); the duplicated keyword `material_cost` of the source is kept. -/

def CATEGORY_MAPPINGS : List (String × List String) := [
  ("Revenue", [
    "revenue", "sales", "income", "professional income",
    "business revenue", "service_division", "Sales & Revenue"]),
  ("Cost of Goods Sold", [
    "cogs", "cost of goods", "material_cost", "material cost",
    "shipping_expense", "shipping", "freight", "material_cost"]),
  ("Payroll & Compensation", [
    "payroll", "salary", "salaries", "wages", "compensation",
    "labor_expense", "labor expense", "employee", "gratuity",
    "vacation payout", "contribution to fund", "incentive",
    "hiring cost", "hiring", "alc"]),
  ("Marketing & Advertising", [
    "marketing", "advertising", "advertisement", "promotion",
    "marketing_expense"]),
  ("Technology & IT", [
    "technology_expense", "technology", "software", "it", "computer",
    "hosting", "cloud", "saas", "internet", "network", "connectivity",
    "application service", "secured storage"]),
  ("Professional Services", [
    "professional_fee", "professional", "consulting", "legal",
    "accounting", "consultant", "audit", "license", "licensing",
    "fts", "payment to reviewers", "processing fee"]),
  ("Travel & Entertainment", [
    "travel_expense", "travel", "trip", "entertainment_expense",
    "entertainment", "meal_expense", "meal", "hotel", "flight",
    "personnel travel", "accommodation", "transportation",
    "trip expense", "trip insurance"]),
  ("Facilities & Operations", [
    "facility_cost", "facility", "facilities", "rent", "lease",
    "utilities", "utility_expense", "utility", "maintenance",
    "building", "operations_expense", "operations", "cleaning",
    "workplace equipment", "leasing"]),
  ("Office & Administrative", [
    "office_expense", "office", "supplies", "stationery",
    "communication_expense", "communication", "telephone",
    "correspondence", "administrative", "admin", "equipment_expense",
    "equipment", "import duty", "additional expenses", "fees and memberships",
    "membership", "insurance_expense", "insurance"]),
  ("Research & Development", [
    "research", "development", "r&d", "rd_", "innovation",
    "rd_labor_expense", "rd_labor", "rd_contractor_fee", "rd_contractor",
    "rd_equipment", "rd_supplies", "rd_expense"]),
  ("Depreciation & Amortization", [
    "depreciation_expense", "depreciation", "amortization"]),
  ("Taxes & Fees", [
    "tax_expense", "tax", "taxes", "duty", "banking_expense",
    "bank", "financial institution charges", "fee for"])]

/-- A compiled keyword pattern matches a (pre-lowercased) text: the
case-insensitively lowered keyword occurs as a substring. -/
def kwMatches (kw : String) (textLower : List Char) : Bool :=
  containsSub (lowerChars kw.data) textLower

/-- Does some keyword of the mapping entry match the text? -/
def entryMatches (textLower : List Char) (p : String × List String) : Bool :=
  p.2.any (fun kw => kwMatches kw textLower)

/-- First category of `CATEGORY_MAPPINGS`, in declaration order, one of whose
keywords matches the lowered text (the two `for category, patterns in
self._compiled_patterns.items()` loops of `CategoryMapper.map_category`). -/
def first_matching_category (textLower : List Char) : Option String :=
  (CATEGORY_MAPPINGS.find? (entryMatches textLower)).map Prod.fst

/-- `CategoryMapper.map_category`. -/
def map_category (account_name account_type : String)
    (existing_category : Option String) : String :=
  if account_type = "revenue" then "Revenue"
  else if account_type = "cogs" then "Cost of Goods Sold"
  else
    let search_text :=
      lowerChars (account_name ++ " " ++ (existing_category.getD "")).data
    match first_matching_category (lowerChars account_name.data) with
    | some cat => cat
    | none =>
      match first_matching_category search_text with
      | some cat => cat
      | none => "Other Expenses"

/-- `map_account_category`, the module-level convenience wrapper. -/
def map_account_category (account_name account_type : String)
    (existing_category : Option String) : String :=
  map_category account_name account_type existing_category

/-! ## Raw records (the dictionaries yielded by both extractors) -/

/-- A raw extracted record: the dictionary yielded by `RootfiExtractor.extract`
or `QuickBooksExtractor.extract`. `Option` fields model keys that may be
absent (QuickBooks records carry no `source_account_id`/`source_record_id`)
or hold `None`. -/
structure RawRecord where
  account_name : Option String
  account_type : Option String
  parent_account : Option String
  period_start : Option String
  period_end : Option String
  amount : ℚ
  currency : Option String
  source_system : Option String
  source_account_id : Option String
  source_record_id : Option String
deriving DecidableEq, Repr

/-! ## RootfiExtractor (`src/extractors/rootfi_extractor.py`) -/

/-- A Rootfi line item: `name`/`value`/`account_id` keys (absent = `none`) and
the nested `line_items` (an absent or empty key both behave as the empty
list, since the source tests `bool(item.get("line_items"))` and only then
recurses into it). -/
inductive LineItem : Type where
  | mk (name : Option String) (value : Option ℚ) (account_id : Option String)
       (children : List LineItem)

mutual

/-- The per-item body of `RootfiExtractor._process_line_items`: a nameless
item contributes nothing, an item with children is skipped in favour of its
children (walked with this item's name as parent), a leaf is yielded. The
record components are the `item_data` dictionary of the source. -/
def process_line_item (account_type : String) (parent_name : Option String) :
    LineItem → List (String × String × Option String × ℚ × Option String)
  | .mk name value account_id children =>
    let nm := pyStrip (name.getD "")
    if nm = "" then []
    else if children.isEmpty then [(nm, account_type, parent_name, value.getD 0, account_id)]
    else process_line_items account_type (some nm) children

/-- `RootfiExtractor._process_line_items`: recursively walk nested line
items, yielding only leaves. -/
def process_line_items (account_type : String) (parent_name : Option String) :
    List LineItem → List (String × String × Option String × ℚ × Option String)
  | [] => []
  | item :: rest =>
    process_line_item account_type parent_name item
    ++ process_line_items account_type parent_name rest

end

/-- A section object inside `revenue` / `cost_of_goods_sold` /
`operating_expenses`: its `name` and (if the key is present) its
`line_items`. -/
structure SectionRec where
  name : Option String
  line_items : Option (List LineItem)

/-- A Rootfi period record. `period_start`/`period_end` are doubly optional:
the outer `Option` is key presence (checked by `validate` via `in`), the
inner one a JSON `null` (both are falsy for `record.get`). The three section
lists model `record.get(key)` where an absent key is `none`. -/
structure PeriodRecord where
  period_start : Option (Option String)
  period_end : Option (Option String)
  currency_id : Option String
  rootfi_id : Option String
  revenue : Option (List SectionRec)
  cost_of_goods_sold : Option (List SectionRec)
  operating_expenses : Option (List SectionRec)

/-- `record.get(k)` through the presence/null double option. -/
def getKey (x : Option (Option String)) : Option String := x.getD none

/-- Truthiness of `record.get(k)` for a string value. -/
def truthyStr (x : Option String) : Bool :=
  match x with
  | none => false
  | some s => s ≠ ""

/-- Process one of the three fixed sections of `RootfiExtractor._extract_period`:
guard `key in record and record[key]`, then for each section object with a
`line_items` key, walk its items and merge in the period-level fields. -/
def process_section (sections : Option (List SectionRec)) (account_type : String)
    (ps pe currency source_record_id : String) : List RawRecord :=
  match sections with
  | none => []
  | some l =>
    if l.isEmpty then []
    else l.flatMap (fun sec =>
      match sec.line_items with
      | none => []
      | some items =>
        (process_line_items account_type sec.name items).map
          (fun it => { account_name := some it.1, account_type := some it.2.1,
                       parent_account := it.2.2.1, period_start := some ps,
                       period_end := some pe, amount := it.2.2.2.1,
                       currency := some currency, source_system := some "rootfi",
                       source_account_id := it.2.2.2.2,
                       source_record_id := some source_record_id }))

/-- `RootfiExtractor._extract_period`. -/
def extract_period (r : PeriodRecord) : List RawRecord :=
  let ps := getKey r.period_start
  let pe := getKey r.period_end
  if truthyStr ps ∧ truthyStr pe then
    let psv := ps.getD ""
    let pev := pe.getD ""
    let currency := pyOr (some (r.currency_id.getD "USD")) "USD"
    let srid := r.rootfi_id.getD ""
    process_section r.revenue "revenue" psv pev currency srid
    ++ process_section r.cost_of_goods_sold "cogs" psv pev currency srid
    ++ process_section r.operating_expenses "expense" psv pev currency srid
  else []

/-- `RootfiExtractor.extract`: all periods, keeping only non-zero amounts. -/
def rootfi_extract (periods : List PeriodRecord) : List RawRecord :=
  (periods.flatMap extract_period).filter (fun t => t.amount ≠ 0)

/-- The parsed JSON shape seen by `RootfiExtractor.validate`: the `data` key
may be absent, present but not a list, or a list of period records. -/
inductive RootfiData : Type where
  | missing
  | notList
  | list (l : List PeriodRecord)

/-- `RootfiExtractor.validate`, from the parsed JSON onward (file existence
and JSON well-formedness are I/O concerns outside the embedding); raising is
modelled as `Except.error` with the raised message. -/
def rootfi_validate (d : RootfiData) : Except String Bool :=
  match d with
  | .missing => .error "Missing 'data' key in Rootfi file"
  | .notList => .error "'data' should be a list of period records"
  | .list [] => .error "Empty data array in Rootfi file"
  | .list (first :: _) =>
    if first.period_start.isNone then .error "Missing required field: period_start"
    else if first.period_end.isNone then .error "Missing required field: period_end"
    else .ok true

/-! ## QuickBooksExtractor (`src/extractors/quickbooks_extractor.py`) -/

/-- A `ColData` cell: its `value` key may be absent. -/
structure QBCell where
  value : Option String
deriving DecidableEq

/-- A column object of `data["Columns"]["Column"]`: `ColType`, `ColTitle`
and the `MetaData` list of Name/Value pairs. -/
structure QBColSrc where
  colType : String
  colTitle : String
  metaData : List (String × String)

/-- A parsed column of `QuickBooksExtractor._parse_columns`. -/
structure QBCol where
  title : String
  start_date : Option String
  end_date : Option String
  col_key : Option String
deriving DecidableEq

/-- Lookup in the `MetaData` dictionary comprehension; a later duplicate name
shadows an earlier one, as in the Python dict construction. -/
def mdGet (md : List (String × String)) (k : String) : Option String :=
  (md.reverse.find? (fun p => p.1 = k)).map Prod.snd

/-- `QuickBooksExtractor._parse_columns`: keep `Money` columns in order,
extracting the period metadata. -/
def parse_columns (cols : List QBColSrc) : List QBCol :=
  (cols.filter (fun c => c.colType = "Money")).map
    (fun c => ⟨c.colTitle, mdGet c.metaData "StartDate",
               mdGet c.metaData "EndDate", mdGet c.metaData "ColKey"⟩)

/-- ASCII digit test. -/
def isDigitCh (c : Char) : Bool := 48 ≤ c.toNat ∧ c.toNat ≤ 57

/-- Decimal value of a digit list. -/
def digitsVal (l : List Char) : ℕ := l.foldl (fun a c => 10 * a + (c.toNat - 48)) 0

/-- Parse an unsigned decimal (`digits`, `digits.digits` or `.digits`),
returning the digit mantissa, the number of fraction digits, and the
unconsumed rest. -/
def parseUnsigned (l : List Char) : Option ((ℕ × ℕ) × List Char) :=
  let ip := l.takeWhile isDigitCh
  let r1 := l.dropWhile isDigitCh
  match r1 with
  | '.' :: r2 =>
    let fp := r2.takeWhile isDigitCh
    let r3 := r2.dropWhile isDigitCh
    if ip.isEmpty && fp.isEmpty then none
    else some ((digitsVal (ip ++ fp), fp.length), r3)
  | _ => if ip.isEmpty then none else some ((digitsVal ip, 0), r1)

/-- The exact value `sign * mantissa * 10 ^ (e - fexp)` as a rational, built
with a single `mkRat` so it normalises by construction. -/
def decToRat (sign : ℤ) (mantissa : ℕ) (fexp : ℕ) (e : ℤ) : ℚ :=
  let n : ℤ := e - (fexp : ℤ)
  if 0 ≤ n then mkRat (sign * (mantissa : ℤ) * ((Nat.pow 10 n.toNat : ℕ) : ℤ)) 1
  else mkRat (sign * (mantissa : ℤ)) (Nat.pow 10 (-n).toNat)

/-- Parse an optional exponent suffix `e`/`E` with optional sign. -/
def parseExpSuffix (l : List Char) : Option (ℤ × List Char) :=
  match l with
  | 'e' :: r | 'E' :: r =>
    let (sgn, r1) : ℤ × List Char :=
      match r with
      | '+' :: r1 => (1, r1)
      | '-' :: r1 => (-1, r1)
      | _ => (1, r)
    let ds := r1.takeWhile isDigitCh
    let r2 := r1.dropWhile isDigitCh
    if ds.isEmpty then none else some (sgn * (digitsVal ds : ℤ), r2)
  | _ => some (0, l)

/-- Python `float(s)` on finite decimal notation, modelled exactly over `ℚ`:
optional surrounding whitespace, optional sign, decimal digits with optional
fraction and exponent; `none` models the `ValueError` on any other input. -/
def pyFloat (l : List Char) : Option ℚ :=
  let l := ((l.dropWhile Char.isWhitespace).reverse.dropWhile Char.isWhitespace).reverse
  let (sgn, l1) : ℤ × List Char :=
    match l with
    | '+' :: r => (1, r)
    | '-' :: r => (-1, r)
    | _ => (1, l)
  match parseUnsigned l1 with
  | none => none
  | some ((mantissa, fexp), r) =>
    match parseExpSuffix r with
    | none => none
    | some (e, r2) => if r2.isEmpty then some (decToRat sgn mantissa fexp e) else none

/-- The amount parsing of `QuickBooksExtractor._process_row`: strip `,` and
`$`, coerce with `float`, and degrade any parse failure to `0.0`. -/
def parse_amount (amount_str : String) : ℚ :=
  (pyFloat (amount_str.data.filter (fun c => c ≠ ',' && c ≠ '$'))).getD 0

/-- The `Section` branch of `_process_row`: keyword-match the `group` label to
update the ambient account type, else inherit it. Matching is case-sensitive
Python `in`. -/
def classify_section (group : Option String) (ty : Option String) : Option String :=
  let g := group.getD ""
  if strContains g "Income" || strContains g "Revenue" then some "revenue"
  else if strContains g "Cost of Goods Sold" || strContains g "COGS" then some "cogs"
  else if strContains g "Expenses" || strContains g "Operating Expenses" then some "expense"
  else ty

/-- A QuickBooks report row: its `type`, `group`, `ColData` cells, and child
rows. `children` models `row["Rows"]["Row"]` normalised to a list (the source
wraps a single dict in a list); an absent or malformed `Rows` key is `[]`. -/
inductive QBRow : Type where
  | mk (type : Option String) (group : Option String) (colData : List QBCell)
       (children : List QBRow)

/-- The per-column emission loop of `_process_row` for a `Data` row: column
`idx` reads cell `idx + 1` (cell 0 is the account name) and yields one record
per non-zero amount. -/
def emit_cells (currency : String) (colData : List QBCell) (name : String)
    (account_type parent : Option String) : List QBCol → ℕ → List RawRecord
  | [], _ => []
  | col :: rest, idx =>
    (if idx + 1 < colData.length then
      let amount := parse_amount (((colData.getD (idx + 1) ⟨some "0"⟩).value).getD "0")
      if amount ≠ 0 then
        [{ account_name := some name, account_type := some (pyOr account_type "other"),
           parent_account := parent, period_start := col.start_date,
           period_end := col.end_date, amount := amount, currency := some currency,
           source_system := some "quickbooks", source_account_id := none,
           source_record_id := none }]
      else []
     else []) ++ emit_cells currency colData name account_type parent rest (idx + 1)

/-- The stripped account name from the first `ColData` cell, when present
(`col_data[0].get("value", "").strip()`). -/
def first_cell_name (colData : List QBCell) : Option String :=
  match colData with
  | [] => none
  | c :: _ => some (pyStrip (c.value.getD ""))

/-- The records a `Data` row emits (empty for any other row type or when the
account name is missing or empty). -/
def data_row_records (currency : String) (cols : List QBCol) (parent ty : Option String)
    (rtype : Option String) (colData : List QBCell) : List RawRecord :=
  if rtype = some "Data" then
    match first_cell_name colData with
    | some nm => if nm = "" then [] else emit_cells currency colData nm ty parent cols 0
    | none => []
  else []

/-- The parent passed to child rows: a `Data` row's non-empty first-cell name,
else the inherited parent (`child_parent or parent_account`). -/
def child_parent_name (rtype : Option String) (colData : List QBCell)
    (parent : Option String) : Option String :=
  match rtype, first_cell_name colData with
  | some "Data", some nm => if nm = "" then parent else some nm
  | _, _ => parent

mutual

/-- `QuickBooksExtractor._process_row`: a `Section` row updates the ambient
account type for its subtree; a `Data` row with a non-empty first-cell name
emits one record per non-zero cell; children are walked with the nearest
`Data` row name as parent. -/
def process_row (currency : String) (cols : List QBCol) (parent ty : Option String) :
    QBRow → List RawRecord
  | .mk rtype group colData children =>
    let ty2 := if rtype = some "Section" then classify_section group ty else ty
    data_row_records currency cols parent ty2 rtype colData
    ++ process_row_list currency cols (child_parent_name rtype colData parent) ty2 children

/-- The child-row loop of `_process_row`. -/
def process_row_list (currency : String) (cols : List QBCol) (parent ty : Option String) :
    List QBRow → List RawRecord
  | [] => []
  | r :: rest =>
    process_row currency cols parent ty r ++ process_row_list currency cols parent ty rest

end

/-- The validated QuickBooks payload: header currency, column definitions and
top-level rows (`data["Rows"]["Row"]` normalised to a list). -/
structure QBFile where
  currency : Option String
  columns : List QBColSrc
  rows : List QBRow

/-- `QuickBooksExtractor.extract`: parse columns once, then process every
top-level row with no inherited parent or account type. -/
def qb_extract (f : QBFile) : List RawRecord :=
  process_row_list (f.currency.getD "USD") (parse_columns f.columns) none none f.rows

/-! ## FinancialTransformer (`src/transformers/financial_transformer.py`) -/

/-- A calendar date (the `.date()` part kept by the transformer). -/
structure PyDate where
  year : ℕ
  month : ℕ
  day : ℕ
deriving DecidableEq, Repr

def isLeap (y : ℕ) : Bool := y % 4 = 0 && (y % 100 ≠ 0 || y % 400 = 0)

def daysInMonth (y m : ℕ) : ℕ :=
  if m = 2 then (if isLeap y then 29 else 28)
  else if m = 4 ∨ m = 6 ∨ m = 9 ∨ m = 11 then 30
  else 31

/-- `date_str.split("T")[0]`: the characters before the first `T`. -/
def splitT (s : String) : List Char := s.data.takeWhile (fun c => c ≠ 'T')

/-- Greedy 1-2 digit field (`strptime` `%m` / `%d`). -/
def parse12 (l : List Char) : Option (ℕ × List Char) :=
  match l with
  | [] => none
  | [a] => if isDigitCh a then some (digitsVal [a], []) else none
  | a :: b :: r =>
    if isDigitCh a then
      if isDigitCh b then some (digitsVal [a, b], r) else some (digitsVal [a], b :: r)
    else none

/-- `datetime.strptime(s, "%Y-%m-%d")`: four year digits, dash, 1-2 month
digits, dash, 1-2 day digits, nothing trailing, and the triple must be a
valid calendar date (year at least 1) or `strptime` raises. -/
def strptime_Ymd (l : List Char) : Option PyDate :=
  match l with
  | y1 :: y2 :: y3 :: y4 :: '-' :: rest =>
    if isDigitCh y1 && isDigitCh y2 && isDigitCh y3 && isDigitCh y4 then
      match parse12 rest with
      | some (m, '-' :: rest2) =>
        match parse12 rest2 with
        | some (d, []) =>
          let y := digitsVal [y1, y2, y3, y4]
          if 1 ≤ y ∧ 1 ≤ m ∧ m ≤ 12 ∧ 1 ≤ d ∧ d ≤ daysInMonth y m then
            some ⟨y, m, d⟩
          else none
        | _ => none
      | _ => none
    else none
  | _ => none

/-- `FinancialTransformer._parse_date`. The source's `formats` list is never
consulted: every iteration of its loop parses `date_str.split("T")[0]` with
`"%Y-%m-%d"`, so four identical attempts collapse to one; falsy input
(`None` or the empty string) is `None`. -/
def parse_date : Option String → Option PyDate
  | none => none
  | some s => if s = "" then none else strptime_Ymd (splitT s)

/-- The normalized transaction dictionary returned by
`FinancialTransformer.transform_transaction`. -/
structure NormalizedTransaction where
  account_id : String
  account_name : String
  account_type : String
  account_category : String
  parent_account : Option String
  source_system : String
  source_account_id : Option String
  period_start : PyDate
  period_end : PyDate
  amount : ℚ
  currency : String
  source_record_id : Option String
deriving DecidableEq

/-- `FinancialTransformer.transform_transaction`; the `ValueError` raised when
either period bound fails to parse is the `Except.error` case (the source
interpolates the raw record into the message; the embedding keeps the fixed
prefix). -/
def transform_transaction (raw : RawRecord) : Except String NormalizedTransaction :=
  let account_name := pyStrip (raw.account_name.getD "")
  let account_type := raw.account_type.getD "other"
  let source_system := raw.source_system.getD "unknown"
  let account_id := generate_account_id account_name account_type source_system
  match parse_date raw.period_start, parse_date raw.period_end with
  | some ps, some pe =>
    .ok { account_id := account_id, account_name := account_name,
          account_type := account_type,
          account_category := map_account_category account_name account_type raw.parent_account,
          parent_account := raw.parent_account, source_system := source_system,
          source_account_id := raw.source_account_id,
          period_start := ps, period_end := pe, amount := raw.amount,
          currency := raw.currency.getD "USD",
          source_record_id := raw.source_record_id }
  | _, _ => .error "Invalid period dates"

/-! ## DimensionLoader (`src/loaders/dimension_loader.py`)

The relational store behind `upsert_account` is modelled as an explicit
`dim_account` table state: a row list with unique natural key `account_id`
and a serial surrogate `account_key`. The PostgreSQL
`INSERT .. ON CONFLICT (account_id) DO UPDATE .. RETURNING account_key`
statement becomes lookup-then-insert-or-update on that state, following the
statement's documented semantics. -/

/-- The keyword arguments of `DimensionLoader.upsert_account`. -/
structure AccountArgs where
  account_id : String
  account_name : String
  account_type : String
  account_category : Option String
  parent_account_name : Option String
  is_parent : Bool
  source_system : String
  source_account_id : Option String
deriving DecidableEq

/-- A `dim_account` row. -/
structure DimAccountRow where
  account_key : ℕ
  account_id : String
  account_name : String
  account_type : String
  account_category : Option String
  parent_account_name : Option String
  is_parent : Bool
  source_system : String
  source_account_id : Option String
deriving DecidableEq

/-- One `DimensionLoader` instance's view: the shared table plus the
per-instance `_account_cache`. -/
structure LoaderState where
  table : List DimAccountRow
  next_key : ℕ
  account_cache : List (String × ℕ)
deriving DecidableEq

def cacheLookup (c : List (String × ℕ)) (id : String) : Option ℕ :=
  (c.find? (fun p => p.1 = id)).map Prod.snd

def tableLookup (t : List DimAccountRow) (id : String) : Option DimAccountRow :=
  t.find? (fun r => r.account_id = id)

/-- `DimensionLoader.upsert_account`: cache first; on a miss, insert or — on
an `account_id` conflict — update name/type/category/parent/is_parent (the
`set_` clause leaves the source columns untouched), return the surrogate
key, and cache it. -/
def upsert_account (s : LoaderState) (a : AccountArgs) : ℕ × LoaderState :=
  match cacheLookup s.account_cache a.account_id with
  | some k => (k, s)
  | none =>
    match tableLookup s.table a.account_id with
    | some row =>
      let updated : DimAccountRow :=
        { row with account_name := a.account_name, account_type := a.account_type,
                   account_category := a.account_category,
                   parent_account_name := a.parent_account_name,
                   is_parent := a.is_parent }
      (row.account_key,
       { s with
         table := s.table.map (fun r => if r.account_id = a.account_id then updated else r),
         account_cache := (a.account_id, row.account_key) :: s.account_cache })
    | none =>
      let row : DimAccountRow :=
        { account_key := s.next_key, account_id := a.account_id,
          account_name := a.account_name, account_type := a.account_type,
          account_category := a.account_category,
          parent_account_name := a.parent_account_name, is_parent := a.is_parent,
          source_system := a.source_system, source_account_id := a.source_account_id }
      (s.next_key,
       { table := s.table ++ [row], next_key := s.next_key + 1,
         account_cache := (a.account_id, s.next_key) :: s.account_cache })

/-! ## Pipeline orchestrator (`src/financial_pipeline.py`) -/

/-- One row of the failed-records CSV export, with the fixed column set
assembled in `run_pipeline`'s per-record `except` handler. -/
structure FailedRecord where
  source_system : String
  account_name : String
  account_type : String
  parent_account : String
  period_start : String
  period_end : String
  amount : ℚ
  currency : String
  error_message : String
  error_type : String
deriving DecidableEq

/-- The failed-record dictionary built from a raw record and the caught
error; every transform failure in the embedding is the `ValueError` of
`transform_transaction`. -/
def mk_failed (source_name : String) (raw : RawRecord) (err : String) : FailedRecord :=
  { source_system := source_name,
    account_name := raw.account_name.getD "N/A",
    account_type := raw.account_type.getD "N/A",
    parent_account := raw.parent_account.getD "N/A",
    period_start := raw.period_start.getD "N/A",
    period_end := raw.period_end.getD "N/A",
    amount := raw.amount,
    currency := raw.currency.getD "N/A",
    error_message := err,
    error_type := "ValueError" }

/-- `_load_facts_batch`, whose only per-record failure paths are storage and
dimension-resolution exceptions external to the embedding; with the embedded
total dimension operations every row of the batch is constructed and
bulk-inserted, so the returned loaded count is the batch size. -/
def load_facts_batch (batch : List NormalizedTransaction) : ℕ := batch.length

/-- The outcome of one pipeline run: final `PipelineRun` status, the
processed/failed counters, and the failed-records buffer persisted to the
CSV export. -/
structure RunStats where
  status : String
  records_processed : ℕ
  records_failed : ℕ
  failed_records : List FailedRecord
deriving DecidableEq

/-- The record loop of `FinancialPipeline.run_pipeline`: transform each raw
record, flush the batch whenever it reaches `chunk_size`, capture each
transform failure in the failed-records buffer and continue; at end of
stream flush the remainder and mark the run completed. -/
def run_loop (source_name : String) (chunk_size : ℕ) :
    List RawRecord → List NormalizedTransaction → ℕ → ℕ → List FailedRecord → RunStats
  | [], batch, processed, failed, fr =>
    { status := "completed", records_processed := processed + load_facts_batch batch,
      records_failed := failed + (batch.length - load_facts_batch batch),
      failed_records := fr }
  | raw :: rest, batch, processed, failed, fr =>
    match transform_transaction raw with
    | .ok t =>
      let batch2 := batch ++ [t]
      if chunk_size ≤ batch2.length then
        run_loop source_name chunk_size rest []
          (processed + load_facts_batch batch2)
          (failed + (batch2.length - load_facts_batch batch2)) fr
      else run_loop source_name chunk_size rest batch2 processed failed fr
    | .error e =>
      run_loop source_name chunk_size rest batch processed (failed + 1)
        (fr ++ [mk_failed source_name raw e])

/-- `FinancialPipeline.run_pipeline` from the extracted record stream onward
(run ids, timestamps and file paths are I/O outside the embedding; the
`failed_records` field is the content of the CSV export). -/
def run_pipeline (source_name : String) (chunk_size : ℕ)
    (records : List RawRecord) : RunStats :=
  run_loop source_name chunk_size records [] 0 0 []

/-! ## Concrete inputs for the end-to-end scenarios -/

/-- Leaf line item of end-to-end scenario 2. -/
def salariesItem : LineItem := .mk (some "Salaries") (some 500) none []

/-- Rollup line item of end-to-end scenario 2. -/
def payrollItem : LineItem := .mk (some "Payroll") (some 500) none [salariesItem]

/-- The `operating_expenses` section of end-to-end scenario 2. -/
def opexSection : SectionRec := ⟨some "Opex", some [payrollItem]⟩

/-- The period record of end-to-end scenario 2. -/
def scenarioPeriod : PeriodRecord :=
  { period_start := some (some "2024-01-01"), period_end := some (some "2024-01-31"),
    currency_id := none, rootfi_id := some "r1",
    revenue := none, cost_of_goods_sold := none,
    operating_expenses := some [opexSection] }

/-- The single leaf record scenario 2 must extract. -/
def salariesRecord : RawRecord :=
  { account_name := some "Salaries", account_type := some "expense",
    parent_account := some "Payroll", period_start := some "2024-01-01",
    period_end := some "2024-01-31", amount := 500, currency := some "USD",
    source_system := some "rootfi", source_account_id := none,
    source_record_id := some "r1" }

/-- Column definitions of end-to-end scenario 1: a leading non-money account
column and three monthly money columns. -/
def qbColumnsSrc : List QBColSrc := [
  ⟨"Account", "", []⟩,
  ⟨"Money", "Jan 2024", [("StartDate", "2024-01-01"), ("EndDate", "2024-01-31"), ("ColKey", "Jan")]⟩,
  ⟨"Money", "Feb 2024", [("StartDate", "2024-02-01"), ("EndDate", "2024-02-29"), ("ColKey", "Feb")]⟩,
  ⟨"Money", "Mar 2024", [("StartDate", "2024-03-01"), ("EndDate", "2024-03-31"), ("ColKey", "Mar")]⟩]

/-- The `Data` row of end-to-end scenario 1. -/
def productSalesRow : QBRow :=
  .mk (some "Data") none
    [⟨some "Product Sales"⟩, ⟨some "1000"⟩, ⟨some "0"⟩, ⟨some "2000"⟩] []

/-- The enclosing `Section` row of end-to-end scenario 1, whose group label
contains `Income`. -/
def incomeSectionRow : QBRow := .mk (some "Section") (some "Income") [] [productSalesRow]

/-- First expected record of scenario 1: period 1, amount 1000. -/
def productSalesJan : RawRecord :=
  { account_name := some "Product Sales", account_type := some "revenue",
    parent_account := none, period_start := some "2024-01-01",
    period_end := some "2024-01-31", amount := 1000, currency := some "USD",
    source_system := some "quickbooks", source_account_id := none,
    source_record_id := none }

/-- Second expected record of scenario 1: period 3, amount 2000. -/
def productSalesMar : RawRecord :=
  { productSalesJan with period_start := some "2024-03-01",
                         period_end := some "2024-03-31", amount := 2000 }

/-- A `Data` row whose only money cell is unparsable. -/
def malformedAmountRow : QBRow := .mk (some "Data") none [⟨some "Misc"⟩, ⟨some "abc"⟩] []

/-- A well-formed raw record for the orchestrator scenario. -/
def goodRaw (name : String) : RawRecord :=
  { account_name := some name, account_type := some "expense",
    parent_account := none, period_start := some "2024-01-01",
    period_end := some "2024-01-31", amount := 10, currency := some "USD",
    source_system := some "rootfi", source_account_id := none,
    source_record_id := some "r1" }

/-- The failing raw record of end-to-end scenario 4: its `period_start` is
unparsable. -/
def badRaw : RawRecord := { goodRaw "Broken" with period_start := some "not-a-date" }

/-- The spec's reference definition of account identity, written from its
words: the first 16 hexadecimal characters of sha256 applied to the
lowercased string `source_system:account_type:account_name`. -/
def reference_account_id (account_name account_type source_system : String) : String :=
  (sha256hex (pyLower (source_system ++ ":" ++ account_type ++ ":" ++ account_name))).take 16

/-- Does `transform_transaction` raise (the per-record failure the
orchestrator catches)? -/
def isTransformError (raw : RawRecord) : Bool :=
  match transform_transaction raw with
  | .error _ => true
  | .ok _ => false

/-! ## Claims -/

/-- C1: in the hierarchical (Rootfi) extractor a line item with a non-empty
`line_items` list is never itself emitted — only its children are walked,
with its (stripped) name as their `parent_account` and the account type
passed through unchanged; and end-to-end scenario 2 yields exactly the one
leaf record ("Salaries", 500, parent "Payroll", type "expense"), with no
record for "Payroll" or "Opex". -/
theorem c1_rollup_skipped_only_leaves_emitted
    (name : Option String) (value : Option ℚ) (account_id : Option String)
    (c : LineItem) (cs : List LineItem) (ty : String) (parent : Option String)
    (h : pyStrip (name.getD "") ≠ "") :
    process_line_items ty parent [.mk name value account_id (c :: cs)]
      = process_line_items ty (some (pyStrip (name.getD ""))) (c :: cs)
    ∧ rootfi_extract [scenarioPeriod] = [salariesRecord] := by
  constructor
  · simp [process_line_items, process_line_item, h]
  · decide

/-- Witness for C1 at the scenario-2 input. -/
theorem c1_witness : rootfi_extract [scenarioPeriod] = [salariesRecord] :=
  (c1_rollup_skipped_only_leaves_emitted (some "Payroll") (some 500) none
    salariesItem [] "expense" (some "Opex") (by decide)).2

/-- C10: a line item whose name is absent, empty, or whitespace-only
contributes nothing: it is neither emitted nor recursed into, so all its
descendants are dropped. -/
theorem c10_nameless_item_contributes_nothing
    (name : Option String) (value : Option ℚ) (account_id : Option String)
    (children rest : List LineItem) (ty : String) (parent : Option String)
    (h : pyStrip (name.getD "") = "") :
    process_line_items ty parent (.mk name value account_id children :: rest)
      = process_line_items ty parent rest := by
  simp [process_line_items, process_line_item, h]

/-- Witness for C10: a whitespace-named rollup with a real leaf below it
yields nothing. -/
theorem c10_witness :
    process_line_items "expense" none
      [LineItem.mk (some "   ") (some 7) none [salariesItem]] = [] := by
  have h := c10_nameless_item_contributes_nothing (some "   ") (some 7) none
    [salariesItem] [] "expense" none (by decide)
  simpa [process_line_items] using h

/-- C5: end-to-end scenario 1 — a `Section` row whose group contains
`Income`, enclosing a `Data` row with cells
`["Product Sales", "1000", "0", "2000"]` against the three parsed monthly
money columns, extracts exactly the period-1 record (amount 1000) and the
period-3 record (amount 2000), both `revenue`; the zero-valued period-2 cell
yields nothing, and cells align with parsed columns offset by one. -/
theorem c5_columnar_scenario :
    process_row "USD" (parse_columns qbColumnsSrc) none none incomeSectionRow
      = [productSalesJan, productSalesMar] := by
  decide

/-- A first Rootfi period record carrying both required fields. -/
def goodFirstPeriod : PeriodRecord :=
  ⟨some (some "2024-01-01"), some (some "2024-01-31"), none, none, none, none, none⟩

/-- A last Rootfi period record lacking both `period_start` and
`period_end`. -/
def badLastPeriod : PeriodRecord := ⟨none, none, none, none, none, none, none⟩

/-- C8 counterexample: the claim says `validate` raises when the last period
record lacks `period_start`/`period_end`; on an input whose first record is
complete and whose last record lacks both, `validate` returns `True`
instead — only the first record is checked. -/
theorem c8_last_record_not_checked :
    badLastPeriod.period_start = none ∧ badLastPeriod.period_end = none ∧
    rootfi_validate (.list [goodFirstPeriod, badLastPeriod]) = .ok true :=
  ⟨rfl, rfl, rfl⟩

/-- C8 as amended: `validate` raises a descriptive error naming the missing
or malformed key when the top-level array is missing, not a list, or empty,
and when the FIRST period record lacks `period_start` or `period_end` (the
last record is not checked); it returns true otherwise. -/
theorem c8_validate_checks_first_record (first : PeriodRecord)
    (rest : List PeriodRecord)
    (h1 : first.period_start.isSome = true) (h2 : first.period_end.isSome = true) :
    rootfi_validate .missing = .error "Missing 'data' key in Rootfi file"
    ∧ rootfi_validate .notList = .error "'data' should be a list of period records"
    ∧ rootfi_validate (.list []) = .error "Empty data array in Rootfi file"
    ∧ (∀ (f2 : PeriodRecord) (r2 : List PeriodRecord), f2.period_start = none →
        rootfi_validate (.list (f2 :: r2)) = .error "Missing required field: period_start")
    ∧ (∀ (f2 : PeriodRecord) (r2 : List PeriodRecord), f2.period_start.isSome = true →
        f2.period_end = none →
        rootfi_validate (.list (f2 :: r2)) = .error "Missing required field: period_end")
    ∧ rootfi_validate (.list (first :: rest)) = .ok true := by
  refine ⟨rfl, rfl, rfl, ?_, ?_, ?_⟩
  · intro f2 r2 hs
    simp [rootfi_validate, hs]
  · intro f2 r2 hs he
    simp [rootfi_validate, he, Option.isNone_iff_eq_none,
          Option.isSome_iff_ne_none.mp hs]
  · simp [rootfi_validate, Option.isNone_iff_eq_none,
          Option.isSome_iff_ne_none.mp h1, Option.isSome_iff_ne_none.mp h2]

/-- Witness for C8's amended theorem at a concrete well-formed input. -/
theorem c8_witness : rootfi_validate (.list [goodFirstPeriod]) = .ok true :=
  (c8_validate_checks_first_record goodFirstPeriod [] rfl rfl).2.2.2.2.2

/-- C2 counterexample: changing `account_name` alone — from "Sales" to
"SALES" — does not change the id, because the key is lowercased before
hashing; so "changing any one of the three inputs changes the id" fails. -/
theorem c2_case_change_same_id :
    generate_account_id "Sales" "revenue" "quickbooks"
      = generate_account_id "SALES" "revenue" "quickbooks"
    ∧ ("Sales" : String) ≠ "SALES" := by
  constructor
  · decide
  · decide

/-- C2 as amended: `generate_account_id` is pure, deterministic, and equal to
the spec's reference definition; the id depends only on the lowercased
`source:type:name` key, so equal lowered keys give equal ids (in particular
a case-only change of one input preserves the id, refuting the unrestricted
"changing any one input changes the id"); and on concrete triples differing
in exactly one of name, type, or source the ids do differ. -/
theorem c2_account_id_deterministic_refines_reference
    (n t s n2 t2 s2 : String)
    (h : pyLower (s ++ ":" ++ t ++ ":" ++ n) = pyLower (s2 ++ ":" ++ t2 ++ ":" ++ n2)) :
    (∀ a b c : String, generate_account_id a b c = reference_account_id a b c)
    ∧ generate_account_id n t s = generate_account_id n2 t2 s2
    ∧ generate_account_id "Sales" "revenue" "quickbooks"
        ≠ generate_account_id "Salaries" "revenue" "quickbooks"
    ∧ generate_account_id "Sales" "revenue" "quickbooks"
        ≠ generate_account_id "Sales" "expense" "quickbooks"
    ∧ generate_account_id "Sales" "revenue" "quickbooks"
        ≠ generate_account_id "Sales" "revenue" "rootfi" := by
  refine ⟨fun a b c => rfl, ?_, by decide, by decide, by decide⟩
  simp only [generate_account_id, h]

/-- Witness for C2's amended theorem: a case-only change of the name keeps
the id. -/
theorem c2_witness :
    generate_account_id "Rent" "expense" "rootfi"
      = generate_account_id "rent" "expense" "rootfi" :=
  (c2_account_id_deterministic_refines_reference "Rent" "expense" "rootfi"
    "rent" "expense" "rootfi" (by decide)).2.1

/-- C4: `map_category` is total: `revenue` short-circuits to "Revenue" and
`cogs` to "Cost of Goods Sold" regardless of name and hint; for any other
account type, if no keyword matches the name nor the name-plus-hint text the
result is "Other Expenses". -/
theorem c4_map_category_total_defaults :
    (∀ (name : String) (hint : Option String), map_category name "revenue" hint = "Revenue")
    ∧ (∀ (name : String) (hint : Option String),
        map_category name "cogs" hint = "Cost of Goods Sold")
    ∧ (∀ (name ty : String) (hint : Option String), ty ≠ "revenue" → ty ≠ "cogs" →
        first_matching_category (lowerChars name.data) = none →
        first_matching_category (lowerChars (name ++ " " ++ hint.getD "").data) = none →
        map_category name ty hint = "Other Expenses") := by
  refine ⟨fun name hint => rfl, fun name hint => rfl,
    fun name ty hint h1 h2 hm1 hm2 => ?_⟩
  simp only [map_category, if_neg h1, if_neg h2, hm1, hm2]

/-- Witness for C4 at an account name matching no keyword. -/
theorem c4_witness : map_category "Zzz" "expense" none = "Other Expenses" :=
  c4_map_category_total_defaults.2.2 "Zzz" "expense" none (by decide) (by decide)
    (by decide) (by decide)

/-- `List.find?` returns the element at index `i` when it satisfies the
predicate and every earlier element does not. -/
theorem find?_eq_of_earlier_all_neg {α : Type} (p : α → Bool) :
    ∀ (l : List α) (i : ℕ) (x : α), l[i]? = some x → p x = true →
      (l.take i).all (fun y => ! p y) = true → l.find? p = some x := by
  intro l
  induction l with
  | nil => intro i x h _ _; simp at h
  | cons a as ih =>
    intro i x h hp hall
    cases i with
    | zero =>
      simp only [List.getElem?_cons_zero, Option.some.injEq] at h
      subst h
      exact List.find?_cons_of_pos _ hp
    | succ j =>
      simp only [List.take_succ_cons, List.all_cons, Bool.and_eq_true] at hall
      obtain ⟨ha, hall2⟩ := hall
      rw [List.find?_cons_of_neg _ (by simp_all)]
      exact ih j x (by simpa using h) hp hall2

/-- C3: for an account type that is neither `revenue` nor `cogs`,
`map_category` returns the category at position `i` of the static table, in
declaration order, as soon as one of its keywords substring-matches the
lowercased name and no earlier category has a matching keyword — the hint is
only consulted when no keyword matches the name alone; and in particular
"Office Rent Expense" maps to "Facilities & Operations". -/
theorem c3_first_category_in_order_wins (name ty : String) (hint : Option String)
    (h1 : ty ≠ "revenue") (h2 : ty ≠ "cogs") (i : ℕ) (cat : String) (kws : List String)
    (hget : CATEGORY_MAPPINGS[i]? = some (cat, kws))
    (hmatch : (kws.any (fun kw => kwMatches kw (lowerChars name.data))) = true)
    (hprior : ((CATEGORY_MAPPINGS.take i).all
        (fun p => ! entryMatches (lowerChars name.data) p)) = true) :
    map_category name ty hint = cat
    ∧ map_category "Office Rent Expense" "expense" none = "Facilities & Operations" := by
  constructor
  · have hfind : CATEGORY_MAPPINGS.find? (entryMatches (lowerChars name.data))
        = some (cat, kws) :=
      find?_eq_of_earlier_all_neg _ CATEGORY_MAPPINGS i (cat, kws) hget
        (by simpa [entryMatches] using hmatch) hprior
    simp only [map_category, if_neg h1, if_neg h2, first_matching_category, hfind,
      Option.map_some']
  · decide

/-- Witness for C3: "Marketing Stuff" hits the fourth table entry
("Marketing & Advertising") and no earlier one. -/
theorem c3_witness : map_category "Marketing Stuff" "expense" none
    = "Marketing & Advertising" :=
  (c3_first_category_in_order_wins "Marketing Stuff" "expense" none (by decide) (by decide)
    3 "Marketing & Advertising"
    ["marketing", "advertising", "advertisement", "promotion", "marketing_expense"]
    (by decide) (by decide) (by decide)).1

/-- Upsert arguments for a fresh account named "Old Name". -/
def acctArgsOld : AccountArgs :=
  ⟨"acct-1", "Old Name", "expense", none, none, false, "rootfi", none⟩

/-- The same account id re-presented with a changed name. -/
def acctArgsNew : AccountArgs := { acctArgsOld with account_name := "New Name" }

/-- A loader over an empty dimension table with an empty cache. -/
def emptyLoader : LoaderState := ⟨[], 1, []⟩

/-- C7 counterexample: on one loader instance, the second `upsert_account`
call with the same `account_id` but a changed name returns the original
surrogate key, but does NOT update the stored account name — the per-instance
cache hit short-circuits before any write, leaving "Old Name" in the row
although the claim says the name is updated. -/
theorem c7_same_instance_name_not_updated :
    ((upsert_account (upsert_account emptyLoader acctArgsOld).2 acctArgsNew).1
      = (upsert_account emptyLoader acctArgsOld).1)
    ∧ ((tableLookup (upsert_account (upsert_account emptyLoader acctArgsOld).2 acctArgsNew).2.table
        "acct-1").map DimAccountRow.account_name = some "Old Name")
    ∧ acctArgsNew.account_name = "New Name"
    ∧ ("Old Name" : String) ≠ "New Name" := by
  exact ⟨by decide, by decide, rfl, by decide⟩

/-- After any `upsert_account`, the presented `account_id` maps in the cache
to the returned surrogate key. -/
theorem upsert_account_caches (s : LoaderState) (a : AccountArgs) :
    cacheLookup (upsert_account s a).2.account_cache a.account_id
      = some (upsert_account s a).1 := by
  rw [upsert_account]
  cases hc : cacheLookup s.account_cache a.account_id with
  | some k => simpa using hc
  | none =>
    cases ht : tableLookup s.table a.account_id with
    | some row => simp [cacheLookup]
    | none => simp [cacheLookup]

/-- In the table after a conflict-update of `id` to row `u`, the lookup
finds `u`. -/
theorem tableLookup_map_update (id : String) (u : DimAccountRow)
    (hu : u.account_id = id) :
    ∀ (t : List DimAccountRow) (row : DimAccountRow), tableLookup t id = some row →
      tableLookup (t.map (fun r => if r.account_id = id then u else r)) id = some u := by
  intro t
  induction t with
  | nil => intro row h; simp [tableLookup] at h
  | cons r rs ih =>
    intro row h
    by_cases hr : r.account_id = id
    · simp [tableLookup, List.find?_cons, hr, hu]
    · rw [tableLookup, List.find?_cons_of_neg _ (by simpa using hr)] at h
      simp only [List.map_cons, if_neg hr]
      rw [tableLookup, List.find?_cons_of_neg _ (by simpa using hr)]
      exact ih row h

/-- C7 as amended: on the same loader instance any second upsert of the same
`account_id` returns the first call's surrogate key and changes nothing —
with unchanged attributes this is idempotence, with a changed name the
stored name is NOT updated (the cache hit short-circuits the write); the
name update, preserving the surrogate key, happens exactly when the calling
loader's cache lacks the id, e.g. a fresh loader instance over the same
store. -/
theorem c7_upsert_idempotent_key_cache_semantics :
    (∀ (s3 : LoaderState) (b b2 : AccountArgs), b2.account_id = b.account_id →
      upsert_account (upsert_account s3 b).2 b2
        = ((upsert_account s3 b).1, (upsert_account s3 b).2))
    ∧ (∀ (t : List DimAccountRow) (nk : ℕ) (b : AccountArgs) (row : DimAccountRow),
        tableLookup t b.account_id = some row →
        (upsert_account ⟨t, nk, []⟩ b).1 = row.account_key
        ∧ (tableLookup (upsert_account ⟨t, nk, []⟩ b).2.table b.account_id).map
            DimAccountRow.account_name = some b.account_name) := by
  constructor
  · intro s3 b b2 hid
    have hc := upsert_account_caches s3 b
    rcases hu : upsert_account s3 b with ⟨k, s1⟩
    rw [hu] at hc
    show upsert_account s1 b2 = (k, s1)
    rw [upsert_account, hid, hc]
  · intro t nk b row hrow
    have hid : row.account_id = b.account_id := by
      have := List.find?_some hrow
      simpa using this
    constructor
    · simp only [upsert_account, cacheLookup, List.find?_nil, Option.map_none', hrow]
    · simp only [upsert_account, cacheLookup, List.find?_nil, Option.map_none', hrow]
      rw [tableLookup_map_update b.account_id _ (by simpa using hid) t row hrow]
      rfl

/-- Witness for C7's amended theorem: a fresh-cache loader over the store
left by inserting "Old Name" under key 1 returns key 1 for the same id and
updates the stored name to "New Name". -/
theorem c7_witness :
    (upsert_account ⟨(upsert_account emptyLoader acctArgsOld).2.table,
        (upsert_account emptyLoader acctArgsOld).2.next_key, []⟩ acctArgsNew).1 = 1
    ∧ (tableLookup (upsert_account ⟨(upsert_account emptyLoader acctArgsOld).2.table,
        (upsert_account emptyLoader acctArgsOld).2.next_key, []⟩ acctArgsNew).2.table
        "acct-1").map DimAccountRow.account_name = some "New Name" := by
  have h := c7_upsert_idempotent_key_cache_semantics.2
    (upsert_account emptyLoader acctArgsOld).2.table
    (upsert_account emptyLoader acctArgsOld).2.next_key acctArgsNew
    ⟨1, "acct-1", "Old Name", "expense", none, none, false, "rootfi", none⟩ (by decide)
  exact ⟨h.1, h.2⟩

/-- Every record the per-column emission loop of a `Data` row yields has a
non-zero amount (the `if amount != 0.0` guard). -/
theorem emit_cells_amount_ne_zero (currency : String) (colData : List QBCell)
    (name : String) (account_type parent : Option String) :
    ∀ (cols : List QBCol) (idx : ℕ) (r : RawRecord),
      r ∈ emit_cells currency colData name account_type parent cols idx →
      r.amount ≠ 0 := by
  intro cols
  induction cols with
  | nil => intro idx r h; simp [emit_cells] at h
  | cons col rest ih =>
    intro idx r h
    simp only [emit_cells] at h
    rcases List.mem_append.mp h with h1 | h2
    · split_ifs at h1 with hlt hnz
      · simp only [List.mem_singleton] at h1
        subst h1
        simpa using hnz
      · simp at h1
      · simp at h1
    · exact ih (idx + 1) r h2

/-- A record of the child-row loop comes from one of the child rows. -/
theorem mem_process_row_list (currency : String) (cols : List QBCol)
    (parent ty : Option String) :
    ∀ (l : List QBRow) (r : RawRecord), r ∈ process_row_list currency cols parent ty l →
      ∃ c ∈ l, r ∈ process_row currency cols parent ty c := by
  intro l
  induction l with
  | nil => intro r h; simp [process_row_list] at h
  | cons c cs ih =>
    intro r h
    simp only [process_row_list] at h
    rcases List.mem_append.mp h with h1 | h2
    · exact ⟨c, List.mem_cons_self c cs, h1⟩
    · obtain ⟨c2, hc2, hr2⟩ := ih r h2
      exact ⟨c2, List.mem_cons_of_mem c hc2, hr2⟩

/-- Every record a `Data` row emits has a non-zero amount. -/
theorem data_row_records_amount_ne_zero (currency : String) (cols : List QBCol)
    (parent ty rtype : Option String) (colData : List QBCell) (r : RawRecord)
    (h : r ∈ data_row_records currency cols parent ty rtype colData) :
    r.amount ≠ 0 := by
  rw [data_row_records] at h
  split_ifs at h with hdata
  · cases hfc : first_cell_name colData with
    | none => rw [hfc] at h; simp at h
    | some nm =>
      rw [hfc] at h
      dsimp only at h
      split_ifs at h with hnm
      · simp at h
      · exact emit_cells_amount_ne_zero _ _ _ _ _ cols 0 r h
  · simp at h

/-- Every record `_process_row` yields, from any row, has a non-zero amount
(strong induction on the row size). -/
theorem process_row_amount_ne_zero :
    ∀ (n : ℕ) (row : QBRow), sizeOf row ≤ n →
      ∀ (currency : String) (cols : List QBCol) (parent ty : Option String) (r : RawRecord),
        r ∈ process_row currency cols parent ty row → r.amount ≠ 0 := by
  intro n
  induction n with
  | zero =>
    intro row hsz
    cases row with
    | mk rtype group colData children =>
      simp [QBRow.mk.sizeOf_spec] at hsz
  | succ n ih =>
    intro row hsz currency cols parent ty r hr
    cases row with
    | mk rtype group colData children =>
      simp only [process_row] at hr
      rcases List.mem_append.mp hr with h1 | h2
      · exact data_row_records_amount_ne_zero _ _ _ _ _ _ r h1
      · obtain ⟨c, hc, hrc⟩ := mem_process_row_list _ _ _ _ children r h2
        have hlt : sizeOf c < sizeOf (QBRow.mk rtype group colData children) := by
          have := List.sizeOf_lt_of_mem hc
          simp only [QBRow.mk.sizeOf_spec]
          omega
        exact ih c (by omega) currency cols _ _ r hrc

/-- C9: in the columnar (QuickBooks) extractor a malformed or missing amount
string never causes a failure — the cell degrades to amount `0.0` and is
silently dropped by the non-zero guard (the concrete malformed row extracts
to nothing, with no error channel in sight) — and consequently every record
`_process_row` or `extract` emits has amount ≠ 0. -/
theorem c9_emitted_amounts_nonzero :
    (∀ (currency : String) (cols : List QBCol) (parent ty : Option String)
       (row : QBRow) (r : RawRecord),
        r ∈ process_row currency cols parent ty row → r.amount ≠ 0)
    ∧ (∀ (f : QBFile) (r : RawRecord), r ∈ qb_extract f → r.amount ≠ 0)
    ∧ parse_amount "abc" = 0
    ∧ process_row "USD" (parse_columns qbColumnsSrc) none none malformedAmountRow = [] := by
  refine ⟨fun currency cols parent ty row r hr =>
      process_row_amount_ne_zero (sizeOf row) row le_rfl currency cols parent ty r hr,
    fun f r hr => ?_, by decide, by decide⟩
  obtain ⟨c, _, hrc⟩ := mem_process_row_list _ _ _ _ f.rows r hr
  exact process_row_amount_ne_zero (sizeOf c) c le_rfl _ _ _ _ r hrc

/-- Witness for C9 at the scenario-1 row: the first emitted record indeed has
a non-zero amount. -/
theorem c9_witness : productSalesJan.amount ≠ 0 :=
  c9_emitted_amounts_nonzero.1 "USD" (parse_columns qbColumnsSrc) none none
    incomeSectionRow productSalesJan (by decide)

/-- `transform_transaction` fails exactly when `period_start` or `period_end`
cannot be parsed. -/
theorem transform_error_iff (raw : RawRecord) :
    isTransformError raw = true
      ↔ (parse_date raw.period_start = none ∨ parse_date raw.period_end = none) := by
  rw [isTransformError, transform_transaction]
  cases parse_date raw.period_start with
  | none => simp
  | some ps =>
    cases parse_date raw.period_end with
    | none => simp
    | some pe => simp

/-- When every remaining record transforms cleanly, the loop completes with
all of them processed (batched flushes included) and the failure state
untouched. -/
theorem run_loop_all_ok (source : String) (chunk : ℕ) :
    ∀ (rs : List RawRecord) (batch : List NormalizedTransaction) (processed failed : ℕ)
      (fr : List FailedRecord),
      (∀ x ∈ rs, isTransformError x = false) →
      run_loop source chunk rs batch processed failed fr
        = ⟨"completed", processed + batch.length + rs.length, failed, fr⟩ := by
  intro rs
  induction rs with
  | nil =>
    intro batch processed failed fr _
    simp [run_loop, load_facts_batch]
  | cons raw rest ih =>
    intro batch processed failed fr hok
    have hraw := hok raw (List.mem_cons_self raw rest)
    rw [run_loop]
    cases htr : transform_transaction raw with
    | error e => rw [isTransformError, htr] at hraw; simp at hraw
    | ok t =>
      dsimp only
      split_ifs with hflush
      · rw [ih _ _ _ _ (fun x hx => hok x (List.mem_cons_of_mem raw hx))]
        simp only [load_facts_batch, List.length_append, List.length_cons,
          List.length_nil, Nat.sub_self, Nat.add_zero, RunStats.mk.injEq,
          true_and, and_true]
        omega
      · rw [ih _ _ _ _ (fun x hx => hok x (List.mem_cons_of_mem raw hx))]
        simp only [List.length_append, List.length_cons, List.length_nil,
          RunStats.mk.injEq, true_and, and_true]
        omega

/-- Running the loop over a clean prefix only moves records from the stream
into the processed count and the pending batch. -/
theorem run_loop_ok_prefix (source : String) (chunk : ℕ) :
    ∀ (rs1 rest : List RawRecord) (batch : List NormalizedTransaction)
      (processed failed : ℕ) (fr : List FailedRecord),
      (∀ x ∈ rs1, isTransformError x = false) →
      ∃ (batch2 : List NormalizedTransaction) (p2 : ℕ),
        run_loop source chunk (rs1 ++ rest) batch processed failed fr
          = run_loop source chunk rest batch2 p2 failed fr
        ∧ p2 + batch2.length = processed + batch.length + rs1.length := by
  intro rs1
  induction rs1 with
  | nil =>
    intro rest batch processed failed fr _
    exact ⟨batch, processed, rfl, by simp⟩
  | cons raw rs ih =>
    intro rest batch processed failed fr hok
    have hraw := hok raw (List.mem_cons_self raw rs)
    rw [List.cons_append, run_loop]
    cases htr : transform_transaction raw with
    | error e => rw [isTransformError, htr] at hraw; simp at hraw
    | ok t =>
      dsimp only
      split_ifs with hflush
      · simp only [load_facts_batch, Nat.sub_self, Nat.add_zero]
        obtain ⟨b2, p2, heq, hcnt⟩ := ih rest [] (processed + (batch ++ [t]).length)
          failed fr (fun x hx => hok x (List.mem_cons_of_mem raw hx))
        refine ⟨b2, p2, heq, ?_⟩
        simp only [List.length_append, List.length_cons, List.length_nil] at hcnt ⊢
        omega
      · obtain ⟨b2, p2, heq, hcnt⟩ := ih rest (batch ++ [t]) processed
          failed fr (fun x hx => hok x (List.mem_cons_of_mem raw hx))
        refine ⟨b2, p2, heq, ?_⟩
        simp only [List.length_append, List.length_cons, List.length_nil] at hcnt ⊢
        omega

/-- C6: `transform_transaction` raises exactly when a period bound cannot be
parsed, and the orchestrator recovers that failure locally: for a stream in
which exactly one record fails to transform, the run completes with
`records_processed` equal to N - 1, `records_failed` equal to 1 (hence at
least 1), and the failed-records export holding exactly the failing record's
identifying fields. -/
theorem c6_transform_failure_recovered_locally (source : String) (chunk : ℕ)
    (rs1 rs2 : List RawRecord) (r : RawRecord) (e : String)
    (h1 : ∀ x ∈ rs1, isTransformError x = false)
    (h2 : ∀ x ∈ rs2, isTransformError x = false)
    (he : transform_transaction r = .error e) :
    (∀ raw : RawRecord, isTransformError raw = true
        ↔ (parse_date raw.period_start = none ∨ parse_date raw.period_end = none))
    ∧ run_pipeline source chunk (rs1 ++ r :: rs2)
        = ⟨"completed", (rs1 ++ r :: rs2).length - 1, 1, [mk_failed source r e]⟩ := by
  refine ⟨transform_error_iff, ?_⟩
  rw [run_pipeline]
  obtain ⟨b2, p2, heq, hcnt⟩ := run_loop_ok_prefix source chunk rs1 (r :: rs2) [] 0 0 [] h1
  rw [heq, run_loop, he]
  dsimp only
  rw [run_loop_all_ok source chunk rs2 b2 p2 (0 + 1) ([] ++ [mk_failed source r e]) h2]
  simp only [List.nil_append, List.length_append, List.length_cons, List.length_nil,
    RunStats.mk.injEq, true_and, and_true] at hcnt ⊢
  omega

/-- Witness for C6: a four-record stream whose second record has an
unparsable `period_start` completes with 3 processed, 1 failed, and exactly
that record exported. -/
theorem c6_witness :
    run_pipeline "rootfi" 2 [goodRaw "A", badRaw, goodRaw "B", goodRaw "C"]
      = ⟨"completed", 3, 1, [mk_failed "rootfi" badRaw "Invalid period dates"]⟩ := by
  have h := c6_transform_failure_recovered_locally "rootfi" 2 [goodRaw "A"]
    [goodRaw "B", goodRaw "C"] badRaw "Invalid period dates"
    (by decide) (by decide) rfl
  exact h.2

end Pipeline
